import Mathlib

/-!
Shallow embedding of the Olm-event decryption pipeline of the `crypto`
package (file `part_000`: `DecryptOlmEvent`, `decryptOlmEvent`,
`tryDecryptOlmEvent`, `createInboundSession`).

External collaborators (the libolm session/account primitives, the session
store, `encoding/json`, the event content registry) are modelled as oracle
fields of the machine / session structures: each field records the result
the primitive returns when called with the given arguments during one
pipeline run.  Side effects (store reads, session decrypt attempts,
log lines, unwedging markers, account persistence, store writes) are made
observable as an `Effect` trace returned alongside the result, in the
order the Go code performs them.
-/

namespace Crypto

/-- Olm message type: in the Go `id` package this is an integer, `0` for
pre-key messages and `1` for normal messages; other values are possible on
the wire and rejected by the pipeline. -/
abbrev OlmMsgType := Nat

/-- `id.OlmMsgTypePreKey = 0`. -/
def OlmMsgTypePreKey : OlmMsgType := 0

/-- `id.OlmMsgTypeMsg = 1`. -/
def OlmMsgTypeMsg : OlmMsgType := 1

/-- `id.AlgorithmOlmV1`. -/
def AlgorithmOlmV1 : String := "m.olm.v1.curve25519-aes-sha2"

/-- Error values of the pipeline.  The eight sentinel errors declared at the
top of the Go file, plus `IncorrectEncryptedContentType` (declared elsewhere
in the package), plus `lowLevel` for an arbitrary error value produced by an
external primitive (store, libolm, json), plus `wrap` for `errors.Wrap`.
Go's `==` on sentinel error values is structural equality here; a wrapped
error is a fresh value and never equal to a sentinel, matching Go. -/
inductive OlmErr where
  | IncorrectEncryptedContentType
  | UnsupportedAlgorithm
  | NotEncryptedForMe
  | UnsupportedOlmMessageType
  | DecryptionFailedWithMatchingSession
  | DecryptionFailedForNormalMessage
  | SenderMismatch
  | RecipientMismatch
  | RecipientKeyMismatch
  | lowLevel (msg : String)
  | wrap (msg : String) (cause : OlmErr)
deriving DecidableEq

/-- Strip all `errors.Wrap` layers off an error, exposing the root cause. -/
def OlmErr.rootCause : OlmErr → OlmErr
  | .wrap _ e => e.rootCause
  | e => e

/-- Observable side effects of one pipeline run, in execution order. -/
inductive Effect where
  | getSessions (senderKey : String)
  | matchCheck (sid : Nat)
  | decryptAttempt (sid : Nat)
  | logWarn
  | logError
  | markUnwedge (sender : String) (senderKey : String)
  | saveAccount
  | addSession (senderKey : String) (sid : Nat)
deriving DecidableEq

/-- The `keys` / `recipient_keys` object inside the decrypted payload. -/
structure OlmEventKeys where
  ed25519 : String
deriving DecidableEq

/-- Outcome of `Content.ParseRaw(type)` on the inner typed content:
it parses, or it fails with an error for which
`event.IsUnsupportedContentType` is true, or it fails with some other
structural error. -/
inductive ParseOutcome where
  | parsed
  | unsupportedType
  | failed (msg : String)
deriving DecidableEq

/-- Inner event content of the decrypted payload: the raw JSON (kept
opaquely) together with what `ParseRaw` does on it for the payload's
declared type. -/
structure EventContent where
  raw : String
  outcome : ParseOutcome
deriving DecidableEq

/-- The decrypted Olm payload as `json.Unmarshal` would populate the
`OlmEvent` struct fields. -/
structure OlmPayload where
  sender : String
  senderDevice : String
  keys : OlmEventKeys
  recipient : String
  recipientKeys : OlmEventKeys
  type : String
  content : EventContent
deriving DecidableEq

/-- A plaintext byte string as seen through `json.Unmarshal`: either it
fails to unmarshal (with some error message) or it yields an `OlmPayload`. -/
inductive Plaintext where
  | malformed (msg : String)
  | payload (p : OlmPayload)
deriving DecidableEq

/-- An Olm ratchet session.  `sid` identifies the session in the effect
trace; the two method fields record what the libolm primitives return for a
given ciphertext (and message type) during this run. -/
structure OlmSession where
  sid : Nat
  MatchesInboundSession : String → Except String Bool
  Decrypt : String → OlmMsgType → Except String Plaintext

/-- One per-recipient ciphertext record of the wire envelope. -/
structure CiphertextEntry where
  type : OlmMsgType
  body : String
deriving DecidableEq

/-- `event.EncryptedEventContent`: algorithm tag, sender identity key, and
the map from recipient identity key to ciphertext record (as an association
list; only lookup is used). -/
structure EncryptedEventContent where
  algorithm : String
  senderKey : String
  olmCiphertext : List (String × CiphertextEntry)
deriving DecidableEq

/-- The parsed content of the transport event: either it is an
`EncryptedEventContent` or the type assertion fails (some other parsed
content type). -/
inductive ParsedContent where
  | encrypted (content : EncryptedEventContent)
  | other (typeName : String)
deriving DecidableEq

/-- The transport event, restricted to the fields the pipeline reads. -/
structure Event where
  sender : String
  parsedContent : ParsedContent
deriving DecidableEq

/-- Go map lookup `content.OlmCiphertext[string(ownKey)]`. -/
def lookupCiphertext : List (String × CiphertextEntry) → String → Option CiphertextEntry
  | [], _ => none
  | (k, v) :: rest, key => if k = key then some v else lookupCiphertext rest key

/-- The decrypted envelope returned to the caller: the payload fields plus
the provenance (`Source`, `SenderKey`) attached post-hoc. -/
structure OlmEvent where
  source : Event
  senderKey : String
  sender : String
  senderDevice : String
  keys : OlmEventKeys
  recipient : String
  recipientKeys : OlmEventKeys
  type : String
  content : EventContent
deriving DecidableEq

/-- The `OlmMachine`, restricted to what the pipeline uses: the local
account's identity keys (`IdentityKeys()` returns the ed25519 fingerprint
key first and the curve25519 identity key second), the client's user id,
and the oracles for the store (`GetSessions`, `AddSession`) and the account
(`NewInboundSessionFrom`). -/
structure OlmMachine where
  accountEd25519 : String
  accountCurve25519 : String
  clientUserID : String
  GetSessions : String → Except String (List OlmSession)
  NewInboundSessionFrom : String → String → Except String OlmSession
  AddSession : String → OlmSession → Except String Unit

/-- The session loop of `tryDecryptOlmEvent` (lines 127–145): iterate the
stored sessions in store order; for a pre-key message run the structural
match check first (propagating a check error, skipping on no-match, and on
match returning either the plaintext or the bare
`DecryptionFailedWithMatchingSession` sentinel); for a normal message
always attempt decrypt, first success wins, failures continue. -/
def tryDecryptLoop (olmType : OlmMsgType) (ciphertext : String) :
    List OlmSession → List Effect × Except OlmErr (Option Plaintext)
  | [] => ([], .ok none)
  | session :: rest =>
    if olmType = OlmMsgTypePreKey then
      match session.MatchesInboundSession ciphertext with
      | .error e =>
        ([.matchCheck session.sid],
         .error (.wrap "failed to check if ciphertext matches inbound session" (.lowLevel e)))
      | .ok false =>
        (.matchCheck session.sid :: (tryDecryptLoop olmType ciphertext rest).1,
         (tryDecryptLoop olmType ciphertext rest).2)
      | .ok true =>
        match session.Decrypt ciphertext olmType with
        | .error _ =>
          ([.matchCheck session.sid, .decryptAttempt session.sid],
           .error .DecryptionFailedWithMatchingSession)
        | .ok plaintext =>
          ([.matchCheck session.sid, .decryptAttempt session.sid], .ok (some plaintext))
    else
      match session.Decrypt ciphertext olmType with
      | .error _ =>
        (.decryptAttempt session.sid :: (tryDecryptLoop olmType ciphertext rest).1,
         (tryDecryptLoop olmType ciphertext rest).2)
      | .ok plaintext => ([.decryptAttempt session.sid], .ok (some plaintext))

/-- `tryDecryptOlmEvent` (lines 122–146): fetch the stored sessions for the
sender key (wrapping a store failure) and run the trial loop.  `.ok none`
is the inconclusive outcome (`nil, nil` in Go). -/
def tryDecryptOlmEvent (mach : OlmMachine) (senderKey : String) (olmType : OlmMsgType)
    (ciphertext : String) : List Effect × Except OlmErr (Option Plaintext) :=
  match mach.GetSessions senderKey with
  | .error e =>
    ([.getSessions senderKey],
     .error (.wrap ("failed to get session for " ++ senderKey) (.lowLevel e)))
  | .ok sessions =>
    (.getSessions senderKey :: (tryDecryptLoop olmType ciphertext sessions).1,
     (tryDecryptLoop olmType ciphertext sessions).2)

/-- `createInboundSession` (lines 148–159): ask the account for a new
inbound session (propagating its error unwrapped), then `SaveAccount`, then
attempt the store write, logging (and swallowing) a write failure; the new
session is returned either way. -/
def createInboundSession (mach : OlmMachine) (senderKey : String) (ciphertext : String) :
    List Effect × Except OlmErr OlmSession :=
  match mach.NewInboundSessionFrom senderKey ciphertext with
  | .error e => ([], .error (.lowLevel e))
  | .ok session =>
    match mach.AddSession senderKey session with
    | .error _ =>
      ([.saveAccount, .addSession senderKey session.sid, .logError], .ok session)
    | .ok _ => ([.saveAccount, .addSession senderKey session.sid], .ok session)

/-- Lines 98–119 of `decryptOlmEvent`: unmarshal the plaintext, run the
three authentication checks in order, parse the inner content tolerating an
unrecognized content type, and attach provenance. -/
def finishOlmEvent (mach : OlmMachine) (evt : Event) (senderKey : String) :
    Plaintext → Except OlmErr OlmEvent
  | .malformed msg => .error (.wrap "failed to parse olm payload" (.lowLevel msg))
  | .payload p =>
    if evt.sender ≠ p.sender then .error .SenderMismatch
    else if mach.clientUserID ≠ p.recipient then .error .RecipientMismatch
    else if mach.accountEd25519 ≠ p.recipientKeys.ed25519 then .error .RecipientKeyMismatch
    else
      match p.content.outcome with
      | .failed msg =>
        .error (.wrap "failed to parse content of olm payload event" (.lowLevel msg))
      | _ =>
        .ok { source := evt, senderKey := senderKey, sender := p.sender,
              senderDevice := p.senderDevice, keys := p.keys, recipient := p.recipient,
              recipientKeys := p.recipientKeys, type := p.type, content := p.content }

/-- `decryptOlmEvent` (lines 63–120): reject unsupported message types, run
trial decryption (logging and marking unwedging exactly when the sentinel
`DecryptionFailedWithMatchingSession` comes back, wrapping every trial
error), on the inconclusive outcome either fail normal messages (with
unwedging) or bootstrap a new session for pre-key messages (unwedging on
bootstrap failure, but not on a decrypt failure with the fresh session),
then finish via parse + authentication + content parse. -/
def decryptOlmEvent (mach : OlmMachine) (evt : Event) (senderKey : String)
    (olmType : OlmMsgType) (ciphertext : String) : List Effect × Except OlmErr OlmEvent :=
  if olmType ≠ OlmMsgTypePreKey ∧ olmType ≠ OlmMsgTypeMsg then
    ([], .error .UnsupportedOlmMessageType)
  else
    match tryDecryptOlmEvent mach senderKey olmType ciphertext with
    | (eff, .error err) =>
      if err = .DecryptionFailedWithMatchingSession then
        (eff ++ [.logWarn, .markUnwedge evt.sender senderKey],
         .error (.wrap "failed to decrypt olm event" err))
      else (eff, .error (.wrap "failed to decrypt olm event" err))
    | (eff, .ok none) =>
      if olmType ≠ OlmMsgTypePreKey then
        (eff ++ [.markUnwedge evt.sender senderKey], .error .DecryptionFailedForNormalMessage)
      else
        match createInboundSession mach senderKey ciphertext with
        | (ceff, .error err) =>
          (eff ++ ceff ++ [.markUnwedge evt.sender senderKey],
           .error (.wrap "failed to create new session from prekey message" err))
        | (ceff, .ok session) =>
          match session.Decrypt ciphertext olmType with
          | .error e =>
            (eff ++ ceff ++ [.decryptAttempt session.sid],
             .error (.wrap "failed to decrypt olm event with session created from prekey message"
               (.lowLevel e)))
          | .ok plaintext =>
            (eff ++ ceff ++ [.decryptAttempt session.sid],
             finishOlmEvent mach evt senderKey plaintext)
    | (eff, .ok (some plaintext)) => (eff, finishOlmEvent mach evt senderKey plaintext)

/-- `DecryptOlmEvent` (lines 44–57): the exported entry point — content
type assertion, algorithm check, ciphertext lookup under the local identity
key, then the inner pipeline. -/
def DecryptOlmEvent (mach : OlmMachine) (evt : Event) : List Effect × Except OlmErr OlmEvent :=
  match evt.parsedContent with
  | .other _ => ([], .error .IncorrectEncryptedContentType)
  | .encrypted content =>
    if content.algorithm ≠ AlgorithmOlmV1 then ([], .error .UnsupportedAlgorithm)
    else
      match lookupCiphertext content.olmCiphertext mach.accountCurve25519 with
      | none => ([], .error .NotEncryptedForMe)
      | some ownContent =>
        decryptOlmEvent mach evt content.senderKey ownContent.type ownContent.body

/-! Helper lemmas about the trial loop, the bootstrap step and the finish
step, shared by the claim theorems below. -/

/-- The trial loop performs only store-session match checks and decrypt
attempts: it never marks a device for unwedging. -/
theorem tryDecryptLoop_no_unwedge (ot : OlmMsgType) (ct u k : String) :
    ∀ ss : List OlmSession, Effect.markUnwedge u k ∉ (tryDecryptLoop ot ct ss).1 := by
  intro ss
  induction ss with
  | nil => simp [tryDecryptLoop]
  | cons s rest ih =>
    simp only [tryDecryptLoop]
    split
    · cases hm : s.MatchesInboundSession ct with
      | error e => simp [hm]
      | ok b =>
        cases b with
        | false =>
          simp only [hm]
          intro hmem
          rcases List.mem_cons.mp hmem with h | h
          · exact Effect.noConfusion h
          · exact ih h
        | true =>
          cases hd : s.Decrypt ct ot with
          | error e => simp [hm, hd]
          | ok pt => simp [hm, hd]
    · cases hd : s.Decrypt ct ot with
      | error e =>
        simp only [hd]
        intro hmem
        rcases List.mem_cons.mp hmem with h | h
        · exact Effect.noConfusion h
        · exact ih h
      | ok pt => simp [hd]

/-- The trial step (store fetch plus loop) never marks a device for
unwedging. -/
theorem tryDecryptOlmEvent_no_unwedge (mach : OlmMachine) (sk : String) (ot : OlmMsgType)
    (ct u k : String) : Effect.markUnwedge u k ∉ (tryDecryptOlmEvent mach sk ot ct).1 := by
  unfold tryDecryptOlmEvent
  cases hg : mach.GetSessions sk with
  | error e => simp
  | ok ss =>
    intro hmem
    rcases List.mem_cons.mp hmem with h | h
    · exact Effect.noConfusion h
    · exact tryDecryptLoop_no_unwedge ot ct u k ss h

/-- The bootstrap step never marks a device for unwedging. -/
theorem createInboundSession_no_unwedge (mach : OlmMachine) (sk ct u k : String) :
    Effect.markUnwedge u k ∉ (createInboundSession mach sk ct).1 := by
  unfold createInboundSession
  cases hn : mach.NewInboundSessionFrom sk ct with
  | error e => simp
  | ok session =>
    cases ha : mach.AddSession sk session with
    | error e => simp [ha]
    | ok _ => simp [ha]

/-- Whenever the finish step returns an envelope, the payload passed all
three authentication checks: its sender equals the transport sender, its
recipient equals the local user id, and its recipient ed25519 key equals
the local fingerprint key. -/
theorem finishOlmEvent_ok_auth (mach : OlmMachine) (evt : Event) (sk : String)
    (pt : Plaintext) (o : OlmEvent) (h : finishOlmEvent mach evt sk pt = .ok o) :
    o.sender = evt.sender ∧ o.recipient = mach.clientUserID ∧
      o.recipientKeys.ed25519 = mach.accountEd25519 := by
  cases pt with
  | malformed msg => exact absurd h (by simp [finishOlmEvent])
  | payload p =>
    simp only [finishOlmEvent] at h
    by_cases hs : evt.sender ≠ p.sender
    · rw [if_pos hs] at h
      exact absurd h (by simp)
    · rw [if_neg hs] at h
      by_cases hr : mach.clientUserID ≠ p.recipient
      · rw [if_pos hr] at h
        exact absurd h (by simp)
      · rw [if_neg hr] at h
        by_cases hk : mach.accountEd25519 ≠ p.recipientKeys.ed25519
        · rw [if_pos hk] at h
          exact absurd h (by simp)
        · rw [if_neg hk] at h
          rw [not_ne_iff] at hs hr hk
          cases ho : p.content.outcome with
          | failed msg =>
            simp only [ho] at h
            exact absurd h (by simp)
          | parsed =>
            simp only [ho, Except.ok.injEq] at h
            subst h
            exact ⟨hs.symm, hr.symm, hk.symm⟩
          | unsupportedType =>
            simp only [ho, Except.ok.injEq] at h
            subst h
            exact ⟨hs.symm, hr.symm, hk.symm⟩

/-- Every error of the finish step is one of the three authentication
sentinels or a wrapped low-level (json / content-parse) failure. -/
theorem finishOlmEvent_error_shape (mach : OlmMachine) (evt : Event) (sk : String)
    (pt : Plaintext) (err : OlmErr) (h : finishOlmEvent mach evt sk pt = .error err) :
    err = .SenderMismatch ∨ err = .RecipientMismatch ∨ err = .RecipientKeyMismatch ∨
      ∃ m e, err = .wrap m (.lowLevel e) := by
  cases pt with
  | malformed msg =>
    simp only [finishOlmEvent, Except.error.injEq] at h
    exact Or.inr (Or.inr (Or.inr ⟨_, _, h.symm⟩))
  | payload p =>
    simp only [finishOlmEvent] at h
    by_cases hs : evt.sender ≠ p.sender
    · rw [if_pos hs] at h
      injection h with h
      exact Or.inl h.symm
    · rw [if_neg hs] at h
      by_cases hr : mach.clientUserID ≠ p.recipient
      · rw [if_pos hr] at h
        injection h with h
        exact Or.inr (Or.inl h.symm)
      · rw [if_neg hr] at h
        by_cases hk : mach.accountEd25519 ≠ p.recipientKeys.ed25519
        · rw [if_pos hk] at h
          injection h with h
          exact Or.inr (Or.inr (Or.inl h.symm))
        · rw [if_neg hk] at h
          cases ho : p.content.outcome with
          | failed msg =>
            simp only [ho, Except.error.injEq] at h
            exact Or.inr (Or.inr (Or.inr ⟨_, _, h.symm⟩))
          | parsed =>
            simp only [ho] at h
            exact absurd h (by simp)
          | unsupportedType =>
            simp only [ho] at h
            exact absurd h (by simp)

/-- The trial loop on a normal message never returns an error: every
failure just moves on to the next session. -/
theorem tryDecryptLoop_msg_no_error (ct : String) (err : OlmErr) :
    ∀ ss : List OlmSession, (tryDecryptLoop OlmMsgTypeMsg ct ss).2 ≠ .error err := by
  intro ss
  induction ss with
  | nil => simp [tryDecryptLoop]
  | cons s rest ih =>
    simp only [tryDecryptLoop]
    rw [if_neg (by decide : ¬(OlmMsgTypeMsg = OlmMsgTypePreKey))]
    cases hd : s.Decrypt ct OlmMsgTypeMsg with
    | error e => simpa [hd] using ih
    | ok pt => simp [hd]

/-- Sessions whose structural pre-key match check returns false are skipped:
they contribute only their match-check effects and the loop continues on
the remainder. -/
theorem tryDecryptLoop_skip (ct : String) (pre rest : List OlmSession)
    (h : ∀ t ∈ pre, t.MatchesInboundSession ct = .ok false) :
    tryDecryptLoop OlmMsgTypePreKey ct (pre ++ rest) =
      ((pre.map fun t => Effect.matchCheck t.sid) ++ (tryDecryptLoop OlmMsgTypePreKey ct rest).1,
       (tryDecryptLoop OlmMsgTypePreKey ct rest).2) := by
  induction pre with
  | nil => simp
  | cons s pre ih =>
    have hs : s.MatchesInboundSession ct = .ok false := h s (by simp)
    have ih' := ih fun t ht => h t (List.mem_cons_of_mem s ht)
    simp only [List.cons_append, tryDecryptLoop, reduceIte, hs, List.append_eq, ih',
      List.map_cons, List.cons_append]

/-- If every stored session fails to decrypt a normal message, the loop is
inconclusive and its trace is exactly one decrypt attempt per session in
store order. -/
theorem tryDecryptLoop_msg_exhaust (ct : String) :
    ∀ ss : List OlmSession, (∀ t ∈ ss, ∃ e, t.Decrypt ct OlmMsgTypeMsg = .error e) →
      tryDecryptLoop OlmMsgTypeMsg ct ss =
        (ss.map fun t => Effect.decryptAttempt t.sid, .ok none) := by
  intro ss
  induction ss with
  | nil => intro _; simp [tryDecryptLoop]
  | cons s rest ih =>
    intro h
    obtain ⟨e, he⟩ := h s (by simp)
    have ih' := ih fun t ht => h t (List.mem_cons_of_mem s ht)
    simp only [tryDecryptLoop]
    rw [if_neg (by decide : ¬(OlmMsgTypeMsg = OlmMsgTypePreKey))]
    simp [he, ih']

/-- Unwrapping distributes over `wrap`. -/
@[simp] theorem OlmErr.rootCause_wrap (m : String) (e : OlmErr) :
    (OlmErr.wrap m e).rootCause = e.rootCause := rfl

/-! Concrete fixtures used by witness and counterexample theorems. -/

/-- A well-formed decrypted payload addressed to the local identity of
`wMach`. -/
def goodPayload : OlmPayload :=
  { sender := "@alice:example.com", senderDevice := "DEV1", keys := ⟨"SIGA"⟩,
    recipient := "@bob:example.com", recipientKeys := ⟨"ACC1"⟩,
    type := "m.room.message", content := ⟨"hi", .parsed⟩ }

/-- A session that structurally matches and decrypts to `goodPayload`. -/
def sessionOK : OlmSession :=
  ⟨4, fun _ => .ok true, fun _ _ => .ok (.payload goodPayload)⟩

/-- A session whose structural pre-key match check is negative. -/
def sessionNoMatch : OlmSession :=
  ⟨1, fun _ => .ok false, fun _ _ => .error "unrelated session"⟩

/-- A session that structurally matches but whose decrypt fails. -/
def sessionMatchFail : OlmSession :=
  ⟨2, fun _ => .ok true, fun _ _ => .error "ratchet desync"⟩

/-- A session whose structural match check itself errors. -/
def sessionMatchErr : OlmSession :=
  ⟨3, fun _ => .error "olm failure", fun _ _ => .error "ratchet desync"⟩

/-- A fresh session (as returned by the account) whose decrypt fails. -/
def sessionFailNew : OlmSession :=
  ⟨5, fun _ => .ok true, fun _ _ => .error "boom"⟩

/-- Baseline machine: local fingerprint key ACC1, identity key CURV1, no
stored sessions, bootstrap yields `sessionOK`, store writes succeed. -/
def wMach : OlmMachine :=
  { accountEd25519 := "ACC1", accountCurve25519 := "CURV1",
    clientUserID := "@bob:example.com",
    GetSessions := fun _ => .ok [], NewInboundSessionFrom := fun _ _ => .ok sessionOK,
    AddSession := fun _ _ => .ok () }

/-- A transport event carrying an Olm-encrypted content block addressed to
`wMach`'s identity key. -/
def wEvt : Event :=
  { sender := "@alice:example.com",
    parsedContent := .encrypted ⟨AlgorithmOlmV1, "SENDER1", [("CURV1", ⟨OlmMsgTypePreKey, "CT"⟩)]⟩ }

/-- A transport event whose parsed content is not an encrypted-event
content block. -/
def wEvtOther : Event :=
  { sender := "@alice:example.com", parsedContent := .other "m.room.message" }

/-- Machine whose store holds a non-matching session followed by a
matching-but-failing session. -/
def wMachMatchFail : OlmMachine :=
  { wMach with GetSessions := fun _ => .ok [sessionNoMatch, sessionMatchFail] }

/-- Machine whose store holds a non-matching session followed by one whose
match check errors. -/
def wMachMatchErr : OlmMachine :=
  { wMach with GetSessions := fun _ => .ok [sessionNoMatch, sessionMatchErr] }

/-- Machine with no stored sessions whose bootstrap returns a session that
fails to decrypt. -/
def wMachFreshFail : OlmMachine :=
  { wMach with NewInboundSessionFrom := fun _ _ => .ok sessionFailNew }

/-! Claim theorems. -/

/-- C8: `DecryptOlmEvent` returns `UnsupportedAlgorithm` when the
algorithm tag is not Olm v1, `NotEncryptedForMe` when the ciphertext map
has no entry under the local account's identity key, and
`UnsupportedOlmMessageType` when the per-recipient message type is neither
PreKey nor Normal — each with an empty effect trace, so before any session
is read or mutated. -/
theorem DecryptOlmEvent_input_validation (mach : OlmMachine) (evt : Event) :
    (∀ c, evt.parsedContent = .encrypted c → c.algorithm ≠ AlgorithmOlmV1 →
      DecryptOlmEvent mach evt = ([], .error .UnsupportedAlgorithm))
    ∧ (∀ c, evt.parsedContent = .encrypted c → c.algorithm = AlgorithmOlmV1 →
      lookupCiphertext c.olmCiphertext mach.accountCurve25519 = none →
      DecryptOlmEvent mach evt = ([], .error .NotEncryptedForMe))
    ∧ (∀ c entry, evt.parsedContent = .encrypted c → c.algorithm = AlgorithmOlmV1 →
      lookupCiphertext c.olmCiphertext mach.accountCurve25519 = some entry →
      entry.type ≠ OlmMsgTypePreKey → entry.type ≠ OlmMsgTypeMsg →
      DecryptOlmEvent mach evt = ([], .error .UnsupportedOlmMessageType))
    ∧ (∀ sk ot ct, ot ≠ OlmMsgTypePreKey → ot ≠ OlmMsgTypeMsg →
      decryptOlmEvent mach evt sk ot ct = ([], .error .UnsupportedOlmMessageType)) := by
  refine ⟨?_, ?_, ?_, ?_⟩
  · intro c hc halg
    simp only [DecryptOlmEvent, hc]
    rw [if_pos halg]
  · intro c hc halg hlk
    simp only [DecryptOlmEvent, hc, hlk]
    rw [if_neg (not_ne_iff.mpr halg)]
  · intro c entry hc halg hlk h0 h1
    simp only [DecryptOlmEvent, hc, hlk]
    rw [if_neg (not_ne_iff.mpr halg)]
    simp only [decryptOlmEvent]
    rw [if_pos ⟨h0, h1⟩]
  · intro sk ot ct h0 h1
    simp only [decryptOlmEvent]
    rw [if_pos ⟨h0, h1⟩]

/-- C8 witness: on a concrete event typed `7`, the entry point rejects with
`UnsupportedOlmMessageType` and an empty trace. -/
theorem DecryptOlmEvent_input_validation_witness :
    DecryptOlmEvent wMach
        { sender := "@alice:example.com",
          parsedContent := .encrypted ⟨AlgorithmOlmV1, "SENDER1", [("CURV1", ⟨7, "CT"⟩)]⟩ } =
      ([], .error .UnsupportedOlmMessageType) :=
  (DecryptOlmEvent_input_validation wMach
      { sender := "@alice:example.com",
        parsedContent := .encrypted ⟨AlgorithmOlmV1, "SENDER1", [("CURV1", ⟨7, "CT"⟩)]⟩ }).2.2.1
    ⟨AlgorithmOlmV1, "SENDER1", [("CURV1", ⟨7, "CT"⟩)]⟩ ⟨7, "CT"⟩ rfl rfl rfl
    (by decide) (by decide)

/-- C10: when the transport event's parsed content is not an
encrypted-event content block, `DecryptOlmEvent` returns
`IncorrectEncryptedContentType` with an empty effect trace. -/
theorem DecryptOlmEvent_incorrect_content_type (mach : OlmMachine) (evt : Event)
    (tag : String) (h : evt.parsedContent = .other tag) :
    DecryptOlmEvent mach evt = ([], .error .IncorrectEncryptedContentType) := by
  simp only [DecryptOlmEvent, h]

/-- C10 witness: concrete run on an event with non-encrypted parsed
content. -/
theorem DecryptOlmEvent_incorrect_content_type_witness :
    DecryptOlmEvent wMach wEvtOther = ([], .error .IncorrectEncryptedContentType) :=
  DecryptOlmEvent_incorrect_content_type wMach wEvtOther "m.room.message" rfl

/-- C2: for a PreKey ciphertext, when the sessions before `s` in store
order all fail the structural match check, `s` matches, and `s`'s decrypt
fails, the pipeline returns `DecryptionFailedWithMatchingSession` wrapped
in context, marks the sender's device for unwedging, and the trial loop's
behaviour (trace and result) is identical whether or not any sessions
follow `s` — no later session is attempted. -/
theorem matching_session_decrypt_failure (mach : OlmMachine) (evt : Event)
    (sk ct e : String) (pre post : List OlmSession) (s : OlmSession)
    (hstore : mach.GetSessions sk = .ok (pre ++ s :: post))
    (hpre : ∀ t ∈ pre, t.MatchesInboundSession ct = .ok false)
    (hmatch : s.MatchesInboundSession ct = .ok true)
    (hfail : s.Decrypt ct OlmMsgTypePreKey = .error e) :
    (decryptOlmEvent mach evt sk OlmMsgTypePreKey ct).2 =
      .error (.wrap "failed to decrypt olm event" .DecryptionFailedWithMatchingSession)
    ∧ Effect.markUnwedge evt.sender sk ∈ (decryptOlmEvent mach evt sk OlmMsgTypePreKey ct).1
    ∧ tryDecryptLoop OlmMsgTypePreKey ct (pre ++ s :: post) =
        tryDecryptLoop OlmMsgTypePreKey ct (pre ++ [s]) := by
  have hload : tryDecryptLoop OlmMsgTypePreKey ct (s :: post) =
      ([.matchCheck s.sid, .decryptAttempt s.sid],
       .error .DecryptionFailedWithMatchingSession) := by
    simp [tryDecryptLoop, hmatch, hfail]
  have hload1 : tryDecryptLoop OlmMsgTypePreKey ct [s] =
      ([.matchCheck s.sid, .decryptAttempt s.sid],
       .error .DecryptionFailedWithMatchingSession) := by
    simp [tryDecryptLoop, hmatch, hfail]
  have hskip := tryDecryptLoop_skip ct pre (s :: post) hpre
  have hskip1 := tryDecryptLoop_skip ct pre [s] hpre
  have htry : tryDecryptOlmEvent mach sk OlmMsgTypePreKey ct =
      (.getSessions sk :: ((pre.map fun t => Effect.matchCheck t.sid) ++
          [.matchCheck s.sid, .decryptAttempt s.sid]),
       .error .DecryptionFailedWithMatchingSession) := by
    simp only [tryDecryptOlmEvent, hstore, hskip, hload]
  refine ⟨?_, ?_, ?_⟩
  · simp only [decryptOlmEvent]
    rw [if_neg (by decide :
      ¬(OlmMsgTypePreKey ≠ OlmMsgTypePreKey ∧ OlmMsgTypePreKey ≠ OlmMsgTypeMsg))]
    simp [htry]
  · simp only [decryptOlmEvent]
    rw [if_neg (by decide :
      ¬(OlmMsgTypePreKey ≠ OlmMsgTypePreKey ∧ OlmMsgTypePreKey ≠ OlmMsgTypeMsg))]
    simp [htry]
  · rw [hskip, hskip1, hload, hload1]

/-- C2 witness: concrete store with a non-matching session before the
matching-but-failing one. -/
theorem matching_session_decrypt_failure_witness :
    (decryptOlmEvent wMachMatchFail wEvt "SENDER1" OlmMsgTypePreKey "CT").2 =
      .error (.wrap "failed to decrypt olm event" .DecryptionFailedWithMatchingSession) :=
  (matching_session_decrypt_failure wMachMatchFail wEvt "SENDER1" "CT" "ratchet desync"
    [sessionNoMatch] [] sessionMatchFail rfl
    (by intro t ht; rw [List.mem_singleton] at ht; subst ht; rfl) rfl rfl).1

/-- C9: for a PreKey ciphertext, when the sessions before `s` in store
order all fail the structural match check and `s`'s match check itself
returns an error, the trial loop stops at `s` (its behaviour is identical
whether or not sessions follow `s`), the pipeline returns that error
wrapped as an infrastructure failure, and no unwedging marker is
emitted. -/
theorem match_check_error_propagates (mach : OlmMachine) (evt : Event)
    (sk ct e : String) (pre post : List OlmSession) (s : OlmSession)
    (hstore : mach.GetSessions sk = .ok (pre ++ s :: post))
    (hpre : ∀ t ∈ pre, t.MatchesInboundSession ct = .ok false)
    (hmatch : s.MatchesInboundSession ct = .error e) :
    (decryptOlmEvent mach evt sk OlmMsgTypePreKey ct).2 =
      .error (.wrap "failed to decrypt olm event"
        (.wrap "failed to check if ciphertext matches inbound session" (.lowLevel e)))
    ∧ tryDecryptLoop OlmMsgTypePreKey ct (pre ++ s :: post) =
        tryDecryptLoop OlmMsgTypePreKey ct (pre ++ [s])
    ∧ ∀ u k, Effect.markUnwedge u k ∉ (decryptOlmEvent mach evt sk OlmMsgTypePreKey ct).1 := by
  have hload : tryDecryptLoop OlmMsgTypePreKey ct (s :: post) =
      ([.matchCheck s.sid],
       .error (.wrap "failed to check if ciphertext matches inbound session" (.lowLevel e))) := by
    simp [tryDecryptLoop, hmatch]
  have hload1 : tryDecryptLoop OlmMsgTypePreKey ct [s] =
      ([.matchCheck s.sid],
       .error (.wrap "failed to check if ciphertext matches inbound session" (.lowLevel e))) := by
    simp [tryDecryptLoop, hmatch]
  have hskip := tryDecryptLoop_skip ct pre (s :: post) hpre
  have hskip1 := tryDecryptLoop_skip ct pre [s] hpre
  have htry : tryDecryptOlmEvent mach sk OlmMsgTypePreKey ct =
      (.getSessions sk :: ((pre.map fun t => Effect.matchCheck t.sid) ++ [.matchCheck s.sid]),
       .error (.wrap "failed to check if ciphertext matches inbound session" (.lowLevel e))) := by
    simp only [tryDecryptOlmEvent, hstore, hskip, hload]
  refine ⟨?_, ?_, ?_⟩
  · simp only [decryptOlmEvent]
    rw [if_neg (by decide :
      ¬(OlmMsgTypePreKey ≠ OlmMsgTypePreKey ∧ OlmMsgTypePreKey ≠ OlmMsgTypeMsg))]
    simp [htry]
  · rw [hskip, hskip1, hload, hload1]
  · intro u k
    simp only [decryptOlmEvent]
    rw [if_neg (by decide :
      ¬(OlmMsgTypePreKey ≠ OlmMsgTypePreKey ∧ OlmMsgTypePreKey ≠ OlmMsgTypeMsg))]
    simp [htry, List.mem_append, List.mem_map]

/-- C9 witness: concrete store with a non-matching session before the one
whose match check errors. -/
theorem match_check_error_propagates_witness :
    (decryptOlmEvent wMachMatchErr wEvt "SENDER1" OlmMsgTypePreKey "CT").2 =
      .error (.wrap "failed to decrypt olm event"
        (.wrap "failed to check if ciphertext matches inbound session"
          (.lowLevel "olm failure"))) :=
  (match_check_error_propagates wMachMatchErr wEvt "SENDER1" "CT" "olm failure"
    [sessionNoMatch] [] sessionMatchErr rfl
    (by intro t ht; rw [List.mem_singleton] at ht; subst ht; rfl) rfl).1
/-- Reduction of one pipeline run when the trial step returns an error:
the sentinel `DecryptionFailedWithMatchingSession` adds the warning and the
unwedging marker, every other error passes through; either way the error
is wrapped in pipeline context. -/
theorem decryptOlmEvent_eq_try_error (mach : OlmMachine) (evt : Event) (sk : String)
    (ot : OlmMsgType) (ct : String) (eff : List Effect) (err : OlmErr)
    (hmt : ¬(ot ≠ OlmMsgTypePreKey ∧ ot ≠ OlmMsgTypeMsg))
    (htr : tryDecryptOlmEvent mach sk ot ct = (eff, .error err)) :
    decryptOlmEvent mach evt sk ot ct =
      if err = .DecryptionFailedWithMatchingSession then
        (eff ++ [.logWarn, .markUnwedge evt.sender sk],
         .error (.wrap "failed to decrypt olm event" err))
      else (eff, .error (.wrap "failed to decrypt olm event" err)) := by
  unfold decryptOlmEvent
  rw [if_neg hmt, htr]

/-- Reduction of one pipeline run when the trial step on a normal message
is inconclusive: unwedging marker plus the normal-message sentinel. -/
theorem decryptOlmEvent_eq_msg_inconclusive (mach : OlmMachine) (evt : Event)
    (sk ct : String) (eff : List Effect)
    (htr : tryDecryptOlmEvent mach sk OlmMsgTypeMsg ct = (eff, .ok none)) :
    decryptOlmEvent mach evt sk OlmMsgTypeMsg ct =
      (eff ++ [.markUnwedge evt.sender sk], .error .DecryptionFailedForNormalMessage) := by
  unfold decryptOlmEvent
  rw [if_neg (by decide :
    ¬(OlmMsgTypeMsg ≠ OlmMsgTypePreKey ∧ OlmMsgTypeMsg ≠ OlmMsgTypeMsg)), htr]
  rfl

/-- Reduction of one pipeline run when the trial step yields a plaintext:
the run proceeds directly to the finish step. -/
theorem decryptOlmEvent_eq_finish (mach : OlmMachine) (evt : Event) (sk : String)
    (ot : OlmMsgType) (ct : String) (eff : List Effect) (pt : Plaintext)
    (hmt : ¬(ot ≠ OlmMsgTypePreKey ∧ ot ≠ OlmMsgTypeMsg))
    (htr : tryDecryptOlmEvent mach sk ot ct = (eff, .ok (some pt))) :
    decryptOlmEvent mach evt sk ot ct = (eff, finishOlmEvent mach evt sk pt) := by
  unfold decryptOlmEvent
  rw [if_neg hmt, htr]

/-- Reduction of one pipeline run when the trial step on a pre-key message
is inconclusive: the run proceeds to bootstrap, then decrypt-with-fresh-
session, then finish. -/
theorem decryptOlmEvent_eq_bootstrap (mach : OlmMachine) (evt : Event) (sk ct : String)
    (eff : List Effect)
    (htr : tryDecryptOlmEvent mach sk OlmMsgTypePreKey ct = (eff, .ok none)) :
    decryptOlmEvent mach evt sk OlmMsgTypePreKey ct =
      match createInboundSession mach sk ct with
      | (ceff, .error err) =>
        (eff ++ ceff ++ [.markUnwedge evt.sender sk],
         .error (.wrap "failed to create new session from prekey message" err))
      | (ceff, .ok session) =>
        match session.Decrypt ct OlmMsgTypePreKey with
        | .error e =>
          (eff ++ ceff ++ [.decryptAttempt session.sid],
           .error (.wrap "failed to decrypt olm event with session created from prekey message"
             (.lowLevel e)))
        | .ok plaintext =>
          (eff ++ ceff ++ [.decryptAttempt session.sid], finishOlmEvent mach evt sk plaintext) := by
  unfold decryptOlmEvent
  rw [if_neg (by decide :
    ¬(OlmMsgTypePreKey ≠ OlmMsgTypePreKey ∧ OlmMsgTypePreKey ≠ OlmMsgTypeMsg)), htr]
  rfl

/-- Master case analysis of one pipeline run: either the result is an
error of one of the non-authentication shapes produced before the finish
step (the unsupported-type sentinel, the normal-message sentinel, or a
wrapped error), or the run reached the finish step on some plaintext and
its effect trace contains no unwedging marker. -/
theorem decryptOlmEvent_cases (mach : OlmMachine) (evt : Event) (sk : String)
    (ot : OlmMsgType) (ct : String) :
    (∃ err, (decryptOlmEvent mach evt sk ot ct).2 = .error err ∧
      (err = .UnsupportedOlmMessageType ∨ err = .DecryptionFailedForNormalMessage ∨
        ∃ m c, err = .wrap m c)) ∨
    (∃ pt, (decryptOlmEvent mach evt sk ot ct).2 = finishOlmEvent mach evt sk pt ∧
      ∀ u k, Effect.markUnwedge u k ∉ (decryptOlmEvent mach evt sk ot ct).1) := by
  by_cases hmt : ot ≠ OlmMsgTypePreKey ∧ ot ≠ OlmMsgTypeMsg
  · left
    refine ⟨.UnsupportedOlmMessageType, ?_, Or.inl rfl⟩
    simp only [decryptOlmEvent]
    rw [if_pos hmt]
  · rcases htr2 : tryDecryptOlmEvent mach sk ot ct with ⟨eff, res⟩
    have heff : ∀ u k, Effect.markUnwedge u k ∉ eff := by
      intro u k
      have hnu := tryDecryptOlmEvent_no_unwedge mach sk ot ct u k
      rw [htr2] at hnu
      exact hnu
    cases res with
    | error err =>
      have hred := decryptOlmEvent_eq_try_error mach evt sk ot ct eff err hmt htr2
      left
      refine ⟨.wrap "failed to decrypt olm event" err, ?_,
        Or.inr (Or.inr ⟨"failed to decrypt olm event", err, rfl⟩)⟩
      rw [hred]
      by_cases he : err = .DecryptionFailedWithMatchingSession
      · rw [if_pos he]
      · rw [if_neg he]
    | ok popt =>
      cases popt with
      | some pt =>
        have hred := decryptOlmEvent_eq_finish mach evt sk ot ct eff pt hmt htr2
        right
        exact ⟨pt, by rw [hred], by intro u k; rw [hred]; exact heff u k⟩
      | none =>
        by_cases hot : ot = OlmMsgTypePreKey
        · subst hot
          have hred := decryptOlmEvent_eq_bootstrap mach evt sk ct eff htr2
          rcases hcs : createInboundSession mach sk ct with ⟨ceff, cres⟩
          have hceff : ∀ u k, Effect.markUnwedge u k ∉ ceff := by
            intro u k
            have hnc := createInboundSession_no_unwedge mach sk ct u k
            rw [hcs] at hnc
            exact hnc
          rw [hcs] at hred
          cases cres with
          | error err2 =>
            left
            refine ⟨.wrap "failed to create new session from prekey message" err2, ?_,
              Or.inr (Or.inr ⟨"failed to create new session from prekey message", err2, rfl⟩)⟩
            rw [hred]
          | ok session =>
            cases hd : session.Decrypt ct OlmMsgTypePreKey with
            | error e2 =>
              left
              refine ⟨.wrap "failed to decrypt olm event with session created from prekey message"
                  (.lowLevel e2), ?_,
                Or.inr (Or.inr
                  ⟨"failed to decrypt olm event with session created from prekey message",
                   .lowLevel e2, rfl⟩)⟩
              rw [hred]
              simp [hd]
            | ok pt =>
              right
              refine ⟨pt, ?_, ?_⟩
              · rw [hred]
                simp [hd]
              · intro u k
                rw [hred]
                simp [hd, List.mem_append, heff u k, hceff u k]
        · have hm : ot = OlmMsgTypeMsg := by
            rcases not_and_or.mp hmt with h | h
            · exact absurd (not_not.mp h) hot
            · exact not_not.mp h
          subst hm
          have hred := decryptOlmEvent_eq_msg_inconclusive mach evt sk ct eff htr2
          left
          refine ⟨.DecryptionFailedForNormalMessage, ?_, Or.inr (Or.inl rfl)⟩
          rw [hred]

/-- C1: an envelope is surfaced only when its sender, recipient, and
recipient ed25519 key match the transport sender, local user id, and local
fingerprint key; the first violated check yields `SenderMismatch`,
`RecipientMismatch`, or `RecipientKeyMismatch` in that order, and any of
those three mismatch results carries no unwedging marker in its trace. -/
theorem decryptOlmEvent_authenticates (mach : OlmMachine) (evt : Event) (sk : String)
    (ot : OlmMsgType) (ct : String) :
    (∀ o, (decryptOlmEvent mach evt sk ot ct).2 = .ok o →
      o.sender = evt.sender ∧ o.recipient = mach.clientUserID ∧
        o.recipientKeys.ed25519 = mach.accountEd25519)
    ∧ (∀ p, evt.sender ≠ p.sender →
        finishOlmEvent mach evt sk (.payload p) = .error .SenderMismatch)
    ∧ (∀ p, evt.sender = p.sender → mach.clientUserID ≠ p.recipient →
        finishOlmEvent mach evt sk (.payload p) = .error .RecipientMismatch)
    ∧ (∀ p, evt.sender = p.sender → mach.clientUserID = p.recipient →
        mach.accountEd25519 ≠ p.recipientKeys.ed25519 →
        finishOlmEvent mach evt sk (.payload p) = .error .RecipientKeyMismatch)
    ∧ (∀ err, (decryptOlmEvent mach evt sk ot ct).2 = .error err →
        err = .SenderMismatch ∨ err = .RecipientMismatch ∨ err = .RecipientKeyMismatch →
        ∀ u k, Effect.markUnwedge u k ∉ (decryptOlmEvent mach evt sk ot ct).1) := by
  refine ⟨?_, ?_, ?_, ?_, ?_⟩
  · intro o ho
    rcases decryptOlmEvent_cases mach evt sk ot ct with ⟨err, herr, _⟩ | ⟨pt, hfin, _⟩
    · rw [herr] at ho
      exact absurd ho (by simp)
    · rw [hfin] at ho
      exact finishOlmEvent_ok_auth mach evt sk pt o ho
  · intro p hs
    simp only [finishOlmEvent]
    rw [if_pos hs]
  · intro p hs hr
    simp only [finishOlmEvent]
    rw [if_neg (not_ne_iff.mpr hs), if_pos hr]
  · intro p hs hr hk
    simp only [finishOlmEvent]
    rw [if_neg (not_ne_iff.mpr hs), if_neg (not_ne_iff.mpr hr), if_pos hk]
  · intro err herr hmem u k
    rcases decryptOlmEvent_cases mach evt sk ot ct with ⟨err2, herr2, hshape⟩ | ⟨pt, hfin, hclean⟩
    · rw [herr2] at herr
      injection herr with heq
      subst heq
      rcases hshape with h | h | ⟨m, c, h⟩ <;> subst h <;>
        rcases hmem with h2 | h2 | h2 <;> exact OlmErr.noConfusion h2
    · exact hclean u k

/-- C1 witness: a payload whose claimed sender differs from the transport
sender is rejected with `SenderMismatch`. -/
theorem decryptOlmEvent_authenticates_witness :
    finishOlmEvent wMach wEvt "SENDER1"
        (.payload { goodPayload with sender := "@mallory:example.com" }) =
      .error .SenderMismatch :=
  (decryptOlmEvent_authenticates wMach wEvt "SENDER1" OlmMsgTypePreKey "CT").2.1
    { goodPayload with sender := "@mallory:example.com" } (by decide)

/-- Every error of the trial step on a normal message is a wrapped
store-fetch failure: the loop itself cannot fail for normal messages. -/
theorem tryDecryptOlmEvent_msg_error_shape (mach : OlmMachine) (sk ct : String) (err : OlmErr)
    (h : (tryDecryptOlmEvent mach sk OlmMsgTypeMsg ct).2 = .error err) :
    ∃ m e, err = .wrap m (.lowLevel e) := by
  unfold tryDecryptOlmEvent at h
  cases hg : mach.GetSessions sk with
  | error e =>
    rw [hg] at h
    simp only [Except.error.injEq] at h
    exact ⟨_, _, h.symm⟩
  | ok ss =>
    rw [hg] at h
    exact absurd h (tryDecryptLoop_msg_no_error ct err ss)

/-- C3: a normal-type ciphertext that no stored session decrypts (the
empty store included) yields `DecryptionFailedForNormalMessage` together
with an unwedging marker for the sender; and no run on a normal-type
ciphertext, on any machine, ever has `DecryptionFailedWithMatchingSession`
as the root cause of its error. -/
theorem normal_message_exhaustion (mach : OlmMachine) (evt : Event) (sk ct : String)
    (ss : List OlmSession) (hstore : mach.GetSessions sk = .ok ss)
    (hfail : ∀ t ∈ ss, ∃ e, t.Decrypt ct OlmMsgTypeMsg = .error e) :
    (decryptOlmEvent mach evt sk OlmMsgTypeMsg ct).2 = .error .DecryptionFailedForNormalMessage
    ∧ Effect.markUnwedge evt.sender sk ∈ (decryptOlmEvent mach evt sk OlmMsgTypeMsg ct).1
    ∧ ∀ (mach2 : OlmMachine) (evt2 : Event) (sk2 ct2 : String) (err : OlmErr),
        (decryptOlmEvent mach2 evt2 sk2 OlmMsgTypeMsg ct2).2 = .error err →
        err.rootCause ≠ .DecryptionFailedWithMatchingSession := by
  have hloop := tryDecryptLoop_msg_exhaust ct ss hfail
  have htry : tryDecryptOlmEvent mach sk OlmMsgTypeMsg ct =
      (.getSessions sk :: (ss.map fun t => Effect.decryptAttempt t.sid), .ok none) := by
    simp only [tryDecryptOlmEvent, hstore, hloop]
  have hred := decryptOlmEvent_eq_msg_inconclusive mach evt sk ct
    (.getSessions sk :: (ss.map fun t => Effect.decryptAttempt t.sid)) htry
  refine ⟨?_, ?_, ?_⟩
  · rw [hred]
  · rw [hred]
    simp
  · intro mach2 evt2 sk2 ct2 err herr
    rcases htr2 : tryDecryptOlmEvent mach2 sk2 OlmMsgTypeMsg ct2 with ⟨eff, res⟩
    cases res with
    | error e2 =>
      obtain ⟨m, e3, hshape⟩ :=
        tryDecryptOlmEvent_msg_error_shape mach2 sk2 ct2 e2 (by rw [htr2])
      subst hshape
      rw [decryptOlmEvent_eq_try_error mach2 evt2 sk2 OlmMsgTypeMsg ct2 eff _ (by decide) htr2,
        if_neg (by simp :
          ¬(OlmErr.wrap m (.lowLevel e3) = OlmErr.DecryptionFailedWithMatchingSession))] at herr
      simp only [Except.error.injEq] at herr
      subst herr
      simp [OlmErr.rootCause]
    | ok popt =>
      cases popt with
      | none =>
        rw [decryptOlmEvent_eq_msg_inconclusive mach2 evt2 sk2 ct2 eff htr2] at herr
        simp only [Except.error.injEq] at herr
        subst herr
        simp [OlmErr.rootCause]
      | some pt =>
        rw [decryptOlmEvent_eq_finish mach2 evt2 sk2 OlmMsgTypeMsg ct2 eff pt
          (by decide) htr2] at herr
        have hfe : finishOlmEvent mach2 evt2 sk2 pt = .error err := herr
        rcases finishOlmEvent_error_shape mach2 evt2 sk2 pt err hfe with
          h | h | h | ⟨m, e3, h⟩ <;> subst h <;> simp [OlmErr.rootCause]

/-- C3 witness: the empty store on a normal message. -/
theorem normal_message_exhaustion_witness :
    (decryptOlmEvent wMach wEvt "SENDER1" OlmMsgTypeMsg "CT").2 =
      .error .DecryptionFailedForNormalMessage :=
  (normal_message_exhaustion wMach wEvt "SENDER1" "CT" [] rfl (by simp)).1

/-- Shared reduction for the fresh-session failure path: trial
inconclusive, bootstrap succeeded, the fresh session's decrypt failed —
the run ends with the wrapped fatal error and its trace holds no unwedging
marker. -/
theorem decryptOlmEvent_fresh_decrypt_error (mach : OlmMachine) (evt : Event)
    (sk ct e : String) (session : OlmSession)
    (htry : (tryDecryptOlmEvent mach sk OlmMsgTypePreKey ct).2 = .ok none)
    (hboot : mach.NewInboundSessionFrom sk ct = .ok session)
    (hfail : session.Decrypt ct OlmMsgTypePreKey = .error e) :
    (decryptOlmEvent mach evt sk OlmMsgTypePreKey ct).2 =
      .error (.wrap "failed to decrypt olm event with session created from prekey message"
        (.lowLevel e))
    ∧ ∀ u k, Effect.markUnwedge u k ∉ (decryptOlmEvent mach evt sk OlmMsgTypePreKey ct).1 := by
  rcases htr2 : tryDecryptOlmEvent mach sk OlmMsgTypePreKey ct with ⟨eff, res⟩
  have hres : res = Except.ok none := by
    have h2 := htry
    rw [htr2] at h2
    exact h2
  subst hres
  have heff : ∀ u k, Effect.markUnwedge u k ∉ eff := by
    intro u k
    have hnu := tryDecryptOlmEvent_no_unwedge mach sk OlmMsgTypePreKey ct u k
    rw [htr2] at hnu
    exact hnu
  have hred := decryptOlmEvent_eq_bootstrap mach evt sk ct eff htr2
  cases ha : mach.AddSession sk session with
  | error e2 =>
    have hcs : createInboundSession mach sk ct =
        ([.saveAccount, .addSession sk session.sid, .logError], .ok session) := by
      simp [createInboundSession, hboot, ha]
    rw [hcs] at hred
    refine ⟨?_, ?_⟩
    · rw [hred]
      simp [hfail]
    · intro u k
      rw [hred]
      simp [hfail, List.mem_append, heff u k]
  | ok _ =>
    have hcs : createInboundSession mach sk ct =
        ([.saveAccount, .addSession sk session.sid], .ok session) := by
      simp [createInboundSession, hboot, ha]
    rw [hcs] at hred
    refine ⟨?_, ?_⟩
    · rw [hred]
      simp [hfail]
    · intro u k
      rw [hred]
      simp [hfail, List.mem_append, heff u k]

/-- C5: when trial decryption of a PreKey ciphertext is inconclusive,
bootstrap succeeds, and the decrypt with the newly created session fails,
the pipeline returns the wrapped error terminally and emits no unwedging
signal. -/
theorem new_session_decrypt_failure_terminal (mach : OlmMachine) (evt : Event)
    (sk ct e : String) (session : OlmSession)
    (htry : (tryDecryptOlmEvent mach sk OlmMsgTypePreKey ct).2 = .ok none)
    (hboot : mach.NewInboundSessionFrom sk ct = .ok session)
    (hfail : session.Decrypt ct OlmMsgTypePreKey = .error e) :
    (decryptOlmEvent mach evt sk OlmMsgTypePreKey ct).2 =
      .error (.wrap "failed to decrypt olm event with session created from prekey message"
        (.lowLevel e))
    ∧ ∀ u k, Effect.markUnwedge u k ∉ (decryptOlmEvent mach evt sk OlmMsgTypePreKey ct).1 :=
  decryptOlmEvent_fresh_decrypt_error mach evt sk ct e session htry hboot hfail

/-- C5 witness: concrete run with an empty store and a fresh session that
fails to decrypt. -/
theorem new_session_decrypt_failure_terminal_witness :
    (decryptOlmEvent wMachFreshFail wEvt "SENDER1" OlmMsgTypePreKey "CT").2 =
      .error (.wrap "failed to decrypt olm event with session created from prekey message"
        (.lowLevel "boom")) :=
  (new_session_decrypt_failure_terminal wMachFreshFail wEvt "SENDER1" "CT" "boom"
    sessionFailNew rfl rfl rfl).1

/-- C4 counterexample: a concrete run in which trial decryption is
inconclusive, bootstrap succeeds, and the fresh session's decrypt fails:
the result is the wrapped fatal error, but the effect trace — listed in
full — contains no unwedging marker, contradicting the claimed unwedging
signal. -/
theorem new_session_decrypt_failure_cex :
    (decryptOlmEvent wMachFreshFail wEvt "SENDER1" OlmMsgTypePreKey "CT").2 =
      .error (.wrap "failed to decrypt olm event with session created from prekey message"
        (.lowLevel "boom"))
    ∧ (decryptOlmEvent wMachFreshFail wEvt "SENDER1" OlmMsgTypePreKey "CT").1 =
      [.getSessions "SENDER1", .saveAccount, .addSession "SENDER1" 5, .decryptAttempt 5] := by
  constructor <;> rfl

/-- C4 amended: for every PreKey ciphertext with inconclusive trial
decryption where bootstrap succeeds but the fresh session's decrypt fails,
the pipeline returns a wrapped fatal error — never
`DecryptionFailedWithMatchingSession`, wrapped or bare — and does not emit
an unwedging signal. -/
theorem new_session_decrypt_failure_amended (mach : OlmMachine) (evt : Event)
    (sk ct e : String) (session : OlmSession)
    (htry : (tryDecryptOlmEvent mach sk OlmMsgTypePreKey ct).2 = .ok none)
    (hboot : mach.NewInboundSessionFrom sk ct = .ok session)
    (hfail : session.Decrypt ct OlmMsgTypePreKey = .error e) :
    (decryptOlmEvent mach evt sk OlmMsgTypePreKey ct).2 =
      .error (.wrap "failed to decrypt olm event with session created from prekey message"
        (.lowLevel e))
    ∧ (∀ m, (decryptOlmEvent mach evt sk OlmMsgTypePreKey ct).2 ≠
        .error (.wrap m .DecryptionFailedWithMatchingSession))
    ∧ (decryptOlmEvent mach evt sk OlmMsgTypePreKey ct).2 ≠
        .error .DecryptionFailedWithMatchingSession
    ∧ ∀ u k, Effect.markUnwedge u k ∉ (decryptOlmEvent mach evt sk OlmMsgTypePreKey ct).1 := by
  obtain ⟨h1, h2⟩ :=
    decryptOlmEvent_fresh_decrypt_error mach evt sk ct e session htry hboot hfail
  refine ⟨h1, ?_, ?_, h2⟩
  · intro m hcontra
    rw [h1] at hcontra
    simp at hcontra
  · intro hcontra
    rw [h1] at hcontra
    simp at hcontra

/-- C4 amended witness: no unwedging marker appears in the concrete run's
trace. -/
theorem new_session_decrypt_failure_amended_witness :
    Effect.markUnwedge "@alice:example.com" "SENDER1" ∉
      (decryptOlmEvent wMachFreshFail wEvt "SENDER1" OlmMsgTypePreKey "CT").1 :=
  (new_session_decrypt_failure_amended wMachFreshFail wEvt "SENDER1" "CT" "boom"
    sessionFailNew rfl rfl rfl).2.2.2 "@alice:example.com" "SENDER1"

/-- C6: when the trial step yields a payload passing all three
authentication checks, an inner content whose only parse failure is an
unrecognized content type still yields a successful envelope with the
content kept opaquely (unchanged, raw form included), while any other
content-parse failure yields a wrapped fatal error. -/
theorem unknown_content_type_tolerated (mach : OlmMachine) (evt : Event) (sk : String)
    (ot : OlmMsgType) (ct : String) (p : OlmPayload) (eff : List Effect)
    (hmt : ¬(ot ≠ OlmMsgTypePreKey ∧ ot ≠ OlmMsgTypeMsg))
    (htry : tryDecryptOlmEvent mach sk ot ct = (eff, .ok (some (.payload p))))
    (hsender : evt.sender = p.sender)
    (hrecip : mach.clientUserID = p.recipient)
    (hkey : mach.accountEd25519 = p.recipientKeys.ed25519) :
    (p.content.outcome = .unsupportedType →
      (decryptOlmEvent mach evt sk ot ct).2 =
        .ok { source := evt, senderKey := sk, sender := p.sender,
              senderDevice := p.senderDevice, keys := p.keys, recipient := p.recipient,
              recipientKeys := p.recipientKeys, type := p.type, content := p.content })
    ∧ (∀ m, p.content.outcome = .failed m →
        (decryptOlmEvent mach evt sk ot ct).2 =
          .error (.wrap "failed to parse content of olm payload event" (.lowLevel m))) := by
  have hred := decryptOlmEvent_eq_finish mach evt sk ot ct eff (.payload p) hmt htry
  constructor
  · intro ho
    rw [hred]
    simp only [finishOlmEvent]
    rw [if_neg (not_ne_iff.mpr hsender), if_neg (not_ne_iff.mpr hrecip),
      if_neg (not_ne_iff.mpr hkey)]
    simp [ho]
  · intro m ho
    rw [hred]
    simp only [finishOlmEvent]
    rw [if_neg (not_ne_iff.mpr hsender), if_neg (not_ne_iff.mpr hrecip),
      if_neg (not_ne_iff.mpr hkey)]
    simp [ho]

/-- A payload whose declared inner content type is unrecognized by the
registry. -/
def unknownTypePayload : OlmPayload :=
  { goodPayload with content := ⟨"raw-unknown", .unsupportedType⟩ }

/-- A session decrypting to `unknownTypePayload`. -/
def sessionUnknownContent : OlmSession :=
  ⟨6, fun _ => .ok true, fun _ _ => .ok (.payload unknownTypePayload)⟩

/-- Machine whose store holds `sessionUnknownContent`. -/
def wMachUnknownContent : OlmMachine :=
  { wMach with GetSessions := fun _ => .ok [sessionUnknownContent] }

/-- C6 witness: the envelope with an unrecognized inner content type is
returned successfully, its raw content preserved. -/
theorem unknown_content_type_tolerated_witness :
    (decryptOlmEvent wMachUnknownContent wEvt "SENDER1" OlmMsgTypePreKey "CT").2 =
      .ok { source := wEvt, senderKey := "SENDER1", sender := unknownTypePayload.sender,
            senderDevice := unknownTypePayload.senderDevice, keys := unknownTypePayload.keys,
            recipient := unknownTypePayload.recipient,
            recipientKeys := unknownTypePayload.recipientKeys,
            type := unknownTypePayload.type, content := unknownTypePayload.content } :=
  (unknown_content_type_tolerated wMachUnknownContent wEvt "SENDER1" OlmMsgTypePreKey "CT"
    unknownTypePayload [.getSessions "SENDER1", .matchCheck 6, .decryptAttempt 6]
    (by decide) rfl rfl rfl rfl).1 rfl

/-- The bootstrap step's result (as opposed to its trace) does not depend
on the store's `AddSession` outcome. -/
theorem createInboundSession_result_addSession (mach : OlmMachine)
    (f : String → OlmSession → Except String Unit) (sk ct : String) :
    (createInboundSession { mach with AddSession := f } sk ct).2 =
      (createInboundSession mach sk ct).2 := by
  unfold createInboundSession
  cases hn : mach.NewInboundSessionFrom sk ct with
  | error e => simp [hn]
  | ok session =>
    cases h1 : f sk session with
    | error e1 =>
      cases h2 : mach.AddSession sk session with
      | error e2 => simp [hn, h1, h2]
      | ok _ => simp [hn, h1, h2]
    | ok _ =>
      cases h2 : mach.AddSession sk session with
      | error e2 => simp [hn, h1, h2]
      | ok _ => simp [hn, h1, h2]

/-- The pipeline's result (as opposed to its trace) does not depend on the
store's `AddSession` outcome: a store write failure never surfaces. -/
theorem decryptOlmEvent_result_addSession (mach : OlmMachine)
    (f : String → OlmSession → Except String Unit) (evt : Event) (sk : String)
    (ot : OlmMsgType) (ct : String) :
    (decryptOlmEvent { mach with AddSession := f } evt sk ot ct).2 =
      (decryptOlmEvent mach evt sk ot ct).2 := by
  have htreq : tryDecryptOlmEvent { mach with AddSession := f } sk ot ct =
      tryDecryptOlmEvent mach sk ot ct := rfl
  have hfeq : ∀ pt, finishOlmEvent { mach with AddSession := f } evt sk pt =
      finishOlmEvent mach evt sk pt := fun pt => by cases pt <;> rfl
  by_cases hmt : ot ≠ OlmMsgTypePreKey ∧ ot ≠ OlmMsgTypeMsg
  · simp only [decryptOlmEvent]
    rw [if_pos hmt, if_pos hmt]
  · rcases htr2 : tryDecryptOlmEvent mach sk ot ct with ⟨eff, res⟩
    have htr2m : tryDecryptOlmEvent { mach with AddSession := f } sk ot ct = (eff, res) := by
      rw [htreq, htr2]
    cases res with
    | error err =>
      rw [decryptOlmEvent_eq_try_error _ evt sk ot ct eff err hmt htr2m,
        decryptOlmEvent_eq_try_error mach evt sk ot ct eff err hmt htr2]
    | ok popt =>
      cases popt with
      | some pt =>
        rw [decryptOlmEvent_eq_finish _ evt sk ot ct eff pt hmt htr2m,
          decryptOlmEvent_eq_finish mach evt sk ot ct eff pt hmt htr2]
        simp [hfeq]
      | none =>
        by_cases hot : ot = OlmMsgTypePreKey
        · subst hot
          rw [decryptOlmEvent_eq_bootstrap _ evt sk ct eff htr2m,
            decryptOlmEvent_eq_bootstrap mach evt sk ct eff htr2]
          rcases hcs : createInboundSession mach sk ct with ⟨ceff, cres⟩
          rcases hcsm : createInboundSession { mach with AddSession := f } sk ct with
            ⟨ceff2, cres2⟩
          have hcr : cres2 = cres := by
            have h := createInboundSession_result_addSession mach f sk ct
            rw [hcs, hcsm] at h
            exact h
          rw [hcr]
          cases cres with
          | error err2 => rfl
          | ok session =>
            cases hd : session.Decrypt ct OlmMsgTypePreKey with
            | error e2 => simp [hd]
            | ok pt => simp [hd, hfeq]
        · have hm : ot = OlmMsgTypeMsg := by
            rcases not_and_or.mp hmt with h | h
            · exact absurd (not_not.mp h) hot
            · exact not_not.mp h
          subst hm
          rw [decryptOlmEvent_eq_msg_inconclusive _ evt sk ct eff htr2m,
            decryptOlmEvent_eq_msg_inconclusive mach evt sk ct eff htr2]

/-- C7: after a successful `NewInboundSessionFrom`, the account save is the
first effect of the bootstrap step — before the store write and before the
session is returned; a store write failure only adds a logged error while
the session is still returned; and the pipeline's result is entirely
independent of the store's `AddSession` outcome, so the failure never
surfaces to the caller. -/
theorem createInboundSession_persistence (mach : OlmMachine) (sk ct : String)
    (session : OlmSession) (hboot : mach.NewInboundSessionFrom sk ct = .ok session) :
    (createInboundSession mach sk ct).2 = .ok session
    ∧ (createInboundSession mach sk ct).1.head? = some .saveAccount
    ∧ ((createInboundSession mach sk ct).1 = [.saveAccount, .addSession sk session.sid] ∨
       (createInboundSession mach sk ct).1 =
         [.saveAccount, .addSession sk session.sid, .logError])
    ∧ (∀ e2, mach.AddSession sk session = .error e2 →
        (createInboundSession mach sk ct).1 =
          [.saveAccount, .addSession sk session.sid, .logError] ∧
        (createInboundSession mach sk ct).2 = .ok session)
    ∧ (∀ (f : String → OlmSession → Except String Unit) (evt : Event) (ot : OlmMsgType),
        (decryptOlmEvent { mach with AddSession := f } evt sk ot ct).2 =
          (decryptOlmEvent mach evt sk ot ct).2) := by
  refine ⟨?_, ?_, ?_, ?_, ?_⟩
  · cases ha : mach.AddSession sk session <;> simp [createInboundSession, hboot, ha]
  · cases ha : mach.AddSession sk session <;> simp [createInboundSession, hboot, ha]
  · cases ha : mach.AddSession sk session
    · right
      simp [createInboundSession, hboot, ha]
    · left
      simp [createInboundSession, hboot, ha]
  · intro e2 ha
    simp [createInboundSession, hboot, ha]
  · intro f evt ot
    exact decryptOlmEvent_result_addSession mach f evt sk ot ct

/-- Machine whose store write always fails. -/
def wMachAddFail : OlmMachine :=
  { wMach with AddSession := fun _ _ => .error "disk full" }

/-- C7 witness: even with a failing store write, the bootstrap step returns
the new session. -/
theorem createInboundSession_persistence_witness :
    (createInboundSession wMachAddFail "SENDER1" "CT").2 = .ok sessionOK :=
  (createInboundSession_persistence wMachAddFail "SENDER1" "CT" sessionOK rfl).1

end Crypto
